import Mathlib

/-!
# Verification of the syncnote-service snapshot server

Shallow embedding of `src/server/index.ts`: a last-writer-wins snapshot store
keyed by pad id, a process-wide version counter, and WebSocket subscriber
broadcast.  Timestamps are modelled as milliseconds since the Unix epoch
(`Int`); the ECMAScript `Date` functionality the server uses
(`new Date(string)`, `Date.prototype.toISOString`, `new Date().toISOString()`)
is modelled for the ISO-8601 extended date-time format with seconds,
optional milliseconds and a `Z` or `±HH:MM` offset, covering years 0000-9999
(the grammar subset relevant to the server's inputs and to every stored
value; stored values are always canonical `toISOString` output).
-/

namespace SyncNote

/-! ## Proleptic Gregorian calendar arithmetic

Day numbering follows ECMAScript's epoch (day 0 = 1970-01-01).  The
conversions use era-based civil-calendar arithmetic: `zz = epochDays + 719468`
counts days from 0000-03-01, an era is 400 years = 146097 days.
-/

/-- Year-of-era (0..399) containing day-of-era `doe` (0..146096), years
starting on March 1. -/
def civilYoe (doe : Nat) : Nat :=
  (doe - doe / 1460 + doe / 36524 - doe / 146096) / 365

/-- First day-of-era of year-of-era `yoe`. -/
def yearStart (yoe : Nat) : Nat := 365 * yoe + yoe / 4 - yoe / 100

/-- Day of the (March-based) year, 0-based. -/
def civilDoy (doe : Nat) : Nat := doe - yearStart (civilYoe doe)

/-- March-based month index (0 = March .. 11 = February). -/
def civilMp (doe : Nat) : Nat := (5 * civilDoy doe + 2) / 153

/-- First day-of-year of March-based month `mp`. -/
def monthStart (mp : Nat) : Nat := (153 * mp + 2) / 5

/-- Day of month, 1-based. -/
def civilD (doe : Nat) : Nat := civilDoy doe - monthStart (civilMp doe) + 1

/-- Civil month, 1-based (January = 1). -/
def civilM (doe : Nat) : Nat :=
  if civilMp doe < 10 then civilMp doe + 3 else civilMp doe - 9

/-- Civil year of shifted day number `zz` (days since 0000-03-01). -/
def civilY (zz : Nat) : Nat :=
  if civilM (zz % 146097) ≤ 2 then
    civilYoe (zz % 146097) + zz / 146097 * 400 + 1
  else
    civilYoe (zz % 146097) + zz / 146097 * 400

/-- March-shifted year used when converting a civil date to a day count. -/
def dfcYY (y m : Nat) : Int := if m ≤ 2 then (y : Int) - 1 else (y : Int)

/-- Era of a civil date (400-year block, floor division for years before 0). -/
def dfcEra (y m : Nat) : Int := dfcYY y m / 400

/-- Year-of-era of a civil date. -/
def dfcYoe (y m : Nat) : Int := dfcYY y m - dfcEra y m * 400

/-- Day-of-year (March-based) of a civil month/day. -/
def dfcDoy (m d : Nat) : Int :=
  (153 * ((m : Int) + (if 2 < m then -3 else 9)) + 2) / 5 + (d : Int) - 1

/-- Day-of-era of a civil date. -/
def dfcDoe (y m d : Nat) : Int :=
  dfcYoe y m * 365 + dfcYoe y m / 4 - dfcYoe y m / 100 + dfcDoy m d

/-- Days since the Unix epoch of civil date `y-m-d` (`y` 0-based, `m` 1..12,
`d` 1..31; out-of-range days roll over, as ECMAScript `MakeDay` does). -/
def daysFromCivil (y m d : Nat) : Int :=
  dfcEra y m * 146097 + dfcDoe y m d - 719468

example : daysFromCivil 1970 1 1 = 0 := by decide
example : daysFromCivil 2024 1 1 = 19723 := by decide
example : daysFromCivil 2024 2 29 = 19782 := by decide
example : daysFromCivil 0 1 1 = -719528 := by decide
example : civilY 719468 = 1970 ∧ civilM 135080 = 1 ∧ civilD 135080 = 1 := by decide

set_option maxHeartbeats 8000000 in
/-- Correctness of the year-of-era formula: the year's first day is at or
before `doe`, `doe` falls at most 365 days into the year, and the
year-of-era is below 400.  Settled by exhausting the 401 candidate values of
the year-of-era. -/
theorem civilYoe_spec (doe : Nat) (h : doe < 146097) :
    yearStart (civilYoe doe) ≤ doe ∧ doe - yearStart (civilYoe doe) ≤ 365 ∧
      civilYoe doe ≤ 399 := by
  unfold civilYoe yearStart
  obtain ⟨y, hy⟩ : ∃ y, (doe - doe / 1460 + doe / 36524 - doe / 146096) / 365 = y :=
    ⟨_, rfl⟩
  rw [hy]
  have hb : y ≤ 400 := by omega
  interval_cases y <;> omega

/-- Correctness of the month split of a day of the year. -/
theorem civilMp_spec (doy : Nat) (h : doy ≤ 365) :
    (5 * doy + 2) / 153 ≤ 11 ∧ monthStart ((5 * doy + 2) / 153) ≤ doy ∧
      doy - monthStart ((5 * doy + 2) / 153) ≤ 30 := by
  unfold monthStart
  omega

theorem civilDoy_le (doe : Nat) (h : doe < 146097) : civilDoy doe ≤ 365 := by
  have := civilYoe_spec doe h
  unfold civilDoy
  omega

theorem civilM_range (doe : Nat) (h : doe < 146097) :
    1 ≤ civilM doe ∧ civilM doe ≤ 12 := by
  have h1 := civilMp_spec (civilDoy doe) (civilDoy_le doe h)
  unfold civilM civilMp
  unfold civilMp civilDoy yearStart monthStart at h1
  unfold civilDoy yearStart
  split <;> omega

theorem civilD_range (doe : Nat) (h : doe < 146097) :
    1 ≤ civilD doe ∧ civilD doe ≤ 31 := by
  have h1 := civilMp_spec (civilDoy doe) (civilDoy_le doe h)
  unfold civilD civilMp civilDoy yearStart monthStart
  unfold civilMp civilDoy yearStart monthStart at h1
  omega

/-- The March-based day-of-year is recovered from the civil month and day. -/
theorem dfcDoy_civil (doe : Nat) (hdoy : civilDoy doe ≤ 365) :
    dfcDoy (civilM doe) (civilD doe) = (civilDoy doe : Int) := by
  have hmp : (5 * civilDoy doe + 2) / 153 ≤ 11 ∧
      monthStart ((5 * civilDoy doe + 2) / 153) ≤ civilDoy doe ∧
      civilDoy doe - monthStart ((5 * civilDoy doe + 2) / 153) ≤ 30 := by
    unfold monthStart
    omega
  have hmp11 : civilMp doe ≤ 11 := hmp.1
  have hms : monthStart (civilMp doe) ≤ civilDoy doe := hmp.2.1
  have hdd : civilD doe = civilDoy doe - monthStart (civilMp doe) + 1 := rfl
  have key : (153 * ((civilM doe : Int) + (if 2 < civilM doe then -3 else 9)) + 2) / 5 =
      (monthStart (civilMp doe) : Int) := by
    rcases Nat.lt_or_ge (civilMp doe) 10 with hc | hc
    · have hm : civilM doe = civilMp doe + 3 := by unfold civilM; rw [if_pos hc]
      rw [hm, if_pos (by omega : 2 < civilMp doe + 3)]
      have hnum : (153 * (((civilMp doe + 3 : Nat) : Int) + -3) + 2) =
          ((153 * civilMp doe + 2 : Nat) : Int) := by push_cast; ring
      rw [hnum]
      unfold monthStart
      norm_cast
    · have hm : civilM doe = civilMp doe - 9 := by unfold civilM; rw [if_neg (by omega)]
      rw [hm, if_neg (by omega : ¬ 2 < civilMp doe - 9)]
      have hnum : (153 * (((civilMp doe - 9 : Nat) : Int) + 9) + 2) =
          ((153 * civilMp doe + 2 : Nat) : Int) := by
        have h9 : ((civilMp doe - 9 : Nat) : Int) = (civilMp doe : Int) - 9 := by omega
        rw [h9]
        push_cast
        ring
      rw [hnum]
      unfold monthStart
      norm_cast
  unfold dfcDoy
  rw [key, hdd]
  omega

/-- The day-to-date conversion is inverted by the date-to-day conversion. -/
theorem daysFromCivil_civil (zz : Nat) :
    daysFromCivil (civilY zz) (civilM (zz % 146097)) (civilD (zz % 146097)) =
      (zz : Int) - 719468 := by
  have hdoe : zz % 146097 < 146097 := Nat.mod_lt _ (by omega)
  have hy := civilYoe_spec (zz % 146097) hdoe
  have hdoy := civilDoy_le (zz % 146097) hdoe
  have hyy : dfcYY (civilY zz) (civilM (zz % 146097)) =
      (civilYoe (zz % 146097) : Int) + 400 * (zz / 146097 : Nat) := by
    unfold dfcYY civilY
    split_ifs <;> push_cast <;> omega
  have hera : dfcEra (civilY zz) (civilM (zz % 146097)) = ((zz / 146097 : Nat) : Int) := by
    unfold dfcEra
    rw [hyy]
    have hB : civilYoe (zz % 146097) ≤ 399 := hy.2.2
    omega
  have hyoe : dfcYoe (civilY zz) (civilM (zz % 146097)) = (civilYoe (zz % 146097) : Int) := by
    unfold dfcYoe
    rw [hyy, hera]
    ring
  have hdd := dfcDoy_civil (zz % 146097) hdoy
  have hq4 : (civilYoe (zz % 146097) : Int) / 4 = ((civilYoe (zz % 146097) / 4 : Nat) : Int) := by
    norm_cast
  have hq100 : (civilYoe (zz % 146097) : Int) / 100 =
      ((civilYoe (zz % 146097) / 100 : Nat) : Int) := by
    norm_cast
  unfold daysFromCivil dfcDoe
  rw [hera, hyoe, hdd, hq4, hq100]
  unfold civilDoy yearStart at *
  omega

/-- For day numbers below 10000-01-01 the civil year stays below 10000. -/
theorem civilY_le (zz : Nat) (h : zz ≤ 3652364) : civilY zz ≤ 9999 := by
  have hdoe : zz % 146097 < 146097 := Nat.mod_lt _ (by omega)
  have hy := civilYoe_spec (zz % 146097) hdoe
  have hdoy := civilDoy_le (zz % 146097) hdoe
  have hmp : monthStart ((5 * civilDoy (zz % 146097) + 2) / 153) ≤ civilDoy (zz % 146097) := by
    unfold monthStart
    omega
  unfold civilY
  split_ifs with hm2
  · have h10 : 10 ≤ civilMp (zz % 146097) := by
      rcases Nat.lt_or_ge (civilMp (zz % 146097)) 10 with hc | hc
      · exfalso
        unfold civilM at hm2
        rw [if_pos hc] at hm2
        omega
      · exact hc
    unfold civilMp at h10
    unfold monthStart at hmp
    unfold civilDoy yearStart at *
    omega
  · unfold yearStart at hy
    omega

/-! ## ECMAScript `Date` string model

`toISOString` models `Date.prototype.toISOString` for instants from
1970-01-01 to 9999-12-31 (all instants the server ever stores, given
non-negative clock readings).  `dateParse` models `new Date(string)` /
`Date.parse` on the ISO-8601 extended date-time grammar
`YYYY-MM-DDTHH:mm:ss(.sss)?(Z|±HH:MM)`; on strings outside this grammar it
returns `none`, modelling an invalid date (`NaN` time value).
-/

/-- The decimal digit character for `n % 10`. -/
def digitChar (n : Nat) : Char := Char.ofNat (48 + n % 10)

/-- Numeric value of a digit character. -/
def dval (c : Char) : Nat := c.toNat - 48

/-- Is `c` one of the characters 0-9? -/
def isDig (c : Char) : Bool := decide (48 ≤ c.toNat) && decide (c.toNat ≤ 57)

theorem dval_digitChar (n : Nat) : dval (digitChar n) = n % 10 := by
  have h : n % 10 < 10 := Nat.mod_lt _ (by norm_num)
  unfold dval digitChar
  obtain ⟨k, hk⟩ : ∃ k, n % 10 = k := ⟨_, rfl⟩
  rw [hk] at h ⊢
  interval_cases k <;> decide

theorem isDig_digitChar (n : Nat) : isDig (digitChar n) = true := by
  have h : n % 10 < 10 := Nat.mod_lt _ (by norm_num)
  unfold isDig digitChar
  obtain ⟨k, hk⟩ : ∃ k, n % 10 = k := ⟨_, rfl⟩
  rw [hk] at h ⊢
  interval_cases k <;> decide

/-- Two-digit zero-padded decimal rendering (for `n ≤ 99`). -/
def pad2 (n : Nat) : List Char := [digitChar (n / 10), digitChar n]

/-- Three-digit zero-padded decimal rendering (for `n ≤ 999`). -/
def pad3 (n : Nat) : List Char := [digitChar (n / 100), digitChar (n / 10), digitChar n]

/-- Four-digit zero-padded decimal rendering (for `n ≤ 9999`). -/
def pad4 (n : Nat) : List Char :=
  [digitChar (n / 1000), digitChar (n / 100), digitChar (n / 10), digitChar n]

theorem val2 (n : Nat) (h : n ≤ 99) :
    10 * dval (digitChar (n / 10)) + dval (digitChar n) = n := by
  rw [dval_digitChar, dval_digitChar]
  omega

theorem val3 (n : Nat) (h : n ≤ 999) :
    100 * dval (digitChar (n / 100)) + 10 * dval (digitChar (n / 10)) +
      dval (digitChar n) = n := by
  rw [dval_digitChar, dval_digitChar, dval_digitChar]
  omega

theorem val4 (n : Nat) (h : n ≤ 9999) :
    1000 * dval (digitChar (n / 1000)) + 100 * dval (digitChar (n / 100)) +
      10 * dval (digitChar (n / 10)) + dval (digitChar n) = n := by
  rw [dval_digitChar, dval_digitChar, dval_digitChar, dval_digitChar]
  omega

/-- Model of `Date.prototype.toISOString`, accurate for
`0 ≤ t < 253402300800000` (1970-01-01 up to 10000-01-01). -/
def toISOString (t : Int) : String :=
  String.mk (
    pad4 (civilY (t.toNat / 86400000 + 719468)) ++ '-' ::
    (pad2 (civilM ((t.toNat / 86400000 + 719468) % 146097)) ++ '-' ::
    (pad2 (civilD ((t.toNat / 86400000 + 719468) % 146097)) ++ 'T' ::
    (pad2 (t.toNat % 86400000 / 3600000) ++ ':' ::
    (pad2 (t.toNat % 86400000 % 3600000 / 60000) ++ ':' ::
    (pad2 (t.toNat % 86400000 % 60000 / 1000) ++ '.' ::
    (pad3 (t.toNat % 1000) ++ ['Z'])))))))

/-- Parse the optional `.sss` milliseconds part. -/
def parseMsTail : List Char → Option (Nat × List Char)
  | '.' :: a :: b :: c :: rest =>
    if isDig a && isDig b && isDig c then
      some (100 * dval a + 10 * dval b + dval c, rest)
    else none
  | '.' :: _ => none
  | l => some (0, l)

/-- Parse the time-zone designator, returning the offset in minutes. -/
def parseOffset : List Char → Option Int
  | ['Z'] => some 0
  | ['+', a, b, ':', c, d] =>
    if isDig a && isDig b && isDig c && isDig d then
      if 10 * dval a + dval b ≤ 23 ∧ 10 * dval c + dval d ≤ 59 then
        some (((10 * dval a + dval b) * 60 + (10 * dval c + dval d) : Nat))
      else none
    else none
  | ['-', a, b, ':', c, d] =>
    if isDig a && isDig b && isDig c && isDig d then
      if 10 * dval a + dval b ≤ 23 ∧ 10 * dval c + dval d ≤ 59 then
        some (-(((10 * dval a + dval b) * 60 + (10 * dval c + dval d) : Nat) : Int))
      else none
    else none
  | _ => none

/-- Combine validated date-time fields and the remaining input into a time
value (milliseconds since the epoch). -/
def parseRest (y m d hh mi ss : Nat) (rest : List Char) : Option Int :=
  if 1 ≤ m ∧ m ≤ 12 ∧ 1 ≤ d ∧ d ≤ 31 ∧ hh ≤ 23 ∧ mi ≤ 59 ∧ ss ≤ 59 then
    match parseMsTail rest with
    | none => none
    | some (ms, rest2) =>
      match parseOffset rest2 with
      | none => none
      | some off =>
        some (daysFromCivil y m d * 86400000 +
          ((hh * 3600000 + mi * 60000 + ss * 1000 + ms : Nat) : Int) - off * 60000)
  else none

/-- Parse an ISO-8601 extended date-time. -/
def parseISO : List Char → Option Int
  | y1 :: y2 :: y3 :: y4 :: '-' :: m1 :: m2 :: '-' :: d1 :: d2 :: 'T' ::
      h1 :: h2 :: ':' :: i1 :: i2 :: ':' :: s1 :: s2 :: rest =>
    if isDig y1 && isDig y2 && isDig y3 && isDig y4 && isDig m1 && isDig m2 &&
        isDig d1 && isDig d2 && isDig h1 && isDig h2 && isDig i1 && isDig i2 &&
        isDig s1 && isDig s2 then
      parseRest (1000 * dval y1 + 100 * dval y2 + 10 * dval y3 + dval y4)
        (10 * dval m1 + dval m2) (10 * dval d1 + dval d2)
        (10 * dval h1 + dval h2) (10 * dval i1 + dval i2) (10 * dval s1 + dval s2) rest
    else none
  | _ => none

/-- Model of `Date.parse` / `new Date(string).getTime()` on the supported
grammar; `none` models an invalid date (`NaN`). -/
def dateParse (s : String) : Option Int := parseISO s.data

example : dateParse "1970-01-01T00:00:00.000Z" = some 0 := by decide
example : dateParse "2024-01-01T00:00:00.000Z" = some 1704067200000 := by decide
example : dateParse "2024-01-01T01:00:00.000+01:00" = some 1704067200000 := by decide
example : dateParse "2024-01-01T00:00:00Z" = some 1704067200000 := by decide
example : dateParse "2023-12-31T23:59:59.000Z" = some 1704067199000 := by decide
example : dateParse "2024-13-01T00:00:00.000Z" = none := by decide
example : dateParse "hello" = none := by decide
example : toISOString 0 = "1970-01-01T00:00:00.000Z" := by decide
example : toISOString 1704067200000 = "2024-01-01T00:00:00.000Z" := by decide
example : toISOString 253402300799999 = "9999-12-31T23:59:59.999Z" := by decide

/-- Canonical serialisations parse back to the instant they denote. -/
theorem dateParse_toISOString (t : Int) (h0 : 0 ≤ t) (h1 : t < 253402300800000) :
    dateParse (toISOString t) = some t := by
  have htn : t = (t.toNat : Int) := by omega
  have htn1 : t.toNat < 253402300800000 := by omega
  have hzz : t.toNat / 86400000 + 719468 ≤ 3652364 := by omega
  have hdoe : (t.toNat / 86400000 + 719468) % 146097 < 146097 := Nat.mod_lt _ (by omega)
  have hy9999 := civilY_le (t.toNat / 86400000 + 719468) hzz
  have hm12 := civilM_range ((t.toNat / 86400000 + 719468) % 146097) hdoe
  have hd31 := civilD_range ((t.toNat / 86400000 + 719468) % 146097) hdoe
  have hdays := daysFromCivil_civil (t.toNat / 86400000 + 719468)
  show parseISO _ = some t
  simp only [toISOString, pad4, pad3, pad2, List.cons_append, List.nil_append]
  rw [parseISO]
  rw [if_pos (by simp [isDig_digitChar])]
  rw [val4 _ hy9999, val2 _ (by omega), val2 _ (by omega), val2 _ (by omega),
    val2 _ (by omega), val2 _ (by omega)]
  rw [parseRest]
  rw [if_pos (by refine ⟨hm12.1, hm12.2, hd31.1, hd31.2, ?_, ?_, ?_⟩ <;> omega)]
  rw [parseMsTail]
  rw [if_pos (by simp [isDig_digitChar])]
  rw [val3 _ (by omega)]
  show (match parseOffset [Char.ofNat 90] with
    | none => none
    | some off =>
      some (daysFromCivil (civilY (t.toNat / 86400000 + 719468))
          (civilM ((t.toNat / 86400000 + 719468) % 146097))
          (civilD ((t.toNat / 86400000 + 719468) % 146097)) * 86400000 +
        ((t.toNat % 86400000 / 3600000 * 3600000 +
          t.toNat % 86400000 % 3600000 / 60000 * 60000 +
          t.toNat % 86400000 % 60000 / 1000 * 1000 + t.toNat % 1000 : Nat) : Int) -
        off * 60000)) = some t
  rw [show parseOffset [Char.ofNat 90] = some 0 from rfl]
  rw [hdays]
  simp only [Option.some.injEq]
  push_cast
  omega

/-! ## Server model

Embeds `src/server/index.ts`.  The `Map` of pads and the `Set` of clients
are modelled as insertion-ordered association lists; `JSON.stringify` of a
snapshot is modelled by the snapshot itself (it is injective on the data
sent).  A request body after `express.json()` is modelled by `RawBody`,
whose fields record whether each property is present and whether it is a
string (`typeof x === "string"`).
-/

/-- One pad snapshot, as stored and served (`type Snapshot`). -/
structure Snapshot where
  text : String
  lastModified : String
  deviceID : String
  version : Nat
deriving Repr, DecidableEq

/-- A JSON value position in a request body: a string, or something else. -/
inductive JsonField where
  | str (s : String)
  | nonString
deriving Repr, DecidableEq

/-- A `PUT /pads/:padId` request body (fields may be absent or non-strings). -/
structure RawBody where
  text : Option JsonField
  lastModified : Option JsonField
  deviceID : Option JsonField
deriving Repr, DecidableEq

/-- A registered WebSocket subscriber: the `Client` record of the source plus
the `readyState` of its socket (`wsOpen` models `readyState === OPEN`). -/
structure Client where
  id : Nat
  padId : String
  wsOpen : Bool
deriving Repr, DecidableEq

/-- Insertion-ordered association list modelling `Map<string, Snapshot>`. -/
abbrev PadMap := List (String × Snapshot)

/-- `pads.get(k)`. -/
def mapGet (m : PadMap) (k : String) : Option Snapshot :=
  match m with
  | [] => none
  | (k1, v1) :: rest => if k1 = k then some v1 else mapGet rest k

/-- `pads.set(k, v)`: replaces in place, appends if absent (JS `Map` keeps
insertion order). -/
def mapSet (m : PadMap) (k : String) (v : Snapshot) : PadMap :=
  match m with
  | [] => [(k, v)]
  | (k1, v1) :: rest => if k1 = k then (k, v) :: rest else (k1, v1) :: mapSet rest k v

theorem mapGet_mapSet_self (m : PadMap) (k : String) (v : Snapshot) :
    mapGet (mapSet m k v) k = some v := by
  induction m with
  | nil => simp [mapGet, mapSet]
  | cons hd tl ih =>
    obtain ⟨k1, v1⟩ := hd
    by_cases hk : k1 = k
    · simp [mapSet, hk, mapGet]
    · simp [mapSet, hk, mapGet, ih]

theorem mapGet_mapSet_other (m : PadMap) (k k2 : String) (v : Snapshot) (h : k ≠ k2) :
    mapGet (mapSet m k v) k2 = mapGet m k2 := by
  induction m with
  | nil => simp [mapGet, mapSet, h]
  | cons hd tl ih =>
    obtain ⟨k1, v1⟩ := hd
    by_cases hk : k1 = k
    · subst hk
      simp [mapSet, mapGet, h]
    · simp [mapSet, hk, mapGet, ih]

/-- Whole-process state: the pad store, the global version counter, and the
registered subscribers. -/
structure ServerState where
  pads : PadMap
  globalVersionCounter : Nat
  clients : List Client
deriving Repr, DecidableEq

/-- State at process start: no pads, counter `0`, no clients. -/
def initialState : ServerState := { pads := [], globalVersionCounter := 0, clients := [] }

/-- The lazily created default snapshot: empty text, stamped with the clock
reading at creation, attributed to `"server"`, version equal to the counter
value at creation. -/
def defaultSnapshot (now : Int) (counter : Nat) : Snapshot :=
  { text := "", lastModified := toISOString now, deviceID := "server",
    version := counter }

/-- `ensureSnapshot(padId)`: return the stored snapshot, or lazily create and
store the default one. -/
def ensureSnapshot (padId : String) (now : Int) (st : ServerState) :
    Snapshot × ServerState :=
  match mapGet st.pads padId with
  | some snap => (snap, st)
  | none =>
    (defaultSnapshot now st.globalVersionCounter,
      { st with pads := mapSet st.pads padId (defaultSnapshot now st.globalVersionCounter) })

/-- `GET /pads/:padId`: respond with `ensureSnapshot(padId)`. -/
def getPad (padId : String) (now : Int) (st : ServerState) : Snapshot × ServerState :=
  ensureSnapshot padId now st

/-- HTTP response of a `PUT /pads/:padId`. -/
inductive PutResp where
  | clientError (msg : String)
  | ok (snap : Snapshot)
deriving Repr, DecidableEq

/-- Result of a `PUT`: response, new state, WebSocket messages sent, and
whether the write was applied (which branch of the handler ran). -/
structure PutOutcome where
  resp : PutResp
  state : ServerState
  msgs : List (Nat × Snapshot)
  applied : Bool
deriving Repr, DecidableEq

/-- `broadcastSnapshot(padId)`: send the stored snapshot to every registered
subscriber of `padId` whose socket is in the `OPEN` state. -/
def broadcastSnapshot (padId : String) (st : ServerState) : List (Nat × Snapshot) :=
  match mapGet st.pads padId with
  | none => []
  | some snap =>
    (st.clients.filter (fun c => c.padId == padId && c.wsOpen)).map (fun c => (c.id, snap))

/-- The snapshot an applied write stores: the candidate with its timestamp
re-serialised canonically and the freshly incremented version. -/
def updatedSnapshot (text deviceID : String) (incomingTime : Int) (counter : Nat) :
    Snapshot :=
  { text := text, lastModified := toISOString incomingTime, deviceID := deviceID,
    version := counter }

/-- The state after an applied write. -/
def appliedState (padId text deviceID : String) (incomingTime : Int)
    (st1 : ServerState) : ServerState :=
  { st1 with
    pads := mapSet st1.pads padId
      (updatedSnapshot text deviceID incomingTime (st1.globalVersionCounter + 1)),
    globalVersionCounter := st1.globalVersionCounter + 1 }

/-- The `PUT` handler after the `typeof` validation has passed. -/
def putPadValid (padId text lastModified deviceID : String) (now : Int)
    (st : ServerState) : PutOutcome :=
  match dateParse lastModified with
  | none =>
    { resp := .clientError "Invalid lastModified", state := st, msgs := [],
      applied := false }
  | some incomingTime =>
    let current := (ensureSnapshot padId now st).1
    let st1 := (ensureSnapshot padId now st).2
    let laterThanCurrent : Bool :=
      match dateParse current.lastModified with
      | none => false
      | some currentTime => decide (currentTime < incomingTime)
    if laterThanCurrent then
      { resp := .ok (updatedSnapshot text deviceID incomingTime
          (st1.globalVersionCounter + 1)),
        state := appliedState padId text deviceID incomingTime st1,
        msgs := broadcastSnapshot padId (appliedState padId text deviceID incomingTime st1),
        applied := true }
    else
      { resp := .ok current, state := st1, msgs := [], applied := false }

/-- `PUT /pads/:padId`: validate the body, parse the timestamp, then
last-writer-wins against `ensureSnapshot(padId)`. -/
def putPad (padId : String) (body : RawBody) (now : Int) (st : ServerState) :
    PutOutcome :=
  match body.text, body.lastModified, body.deviceID with
  | some (.str text), some (.str lastModified), some (.str deviceID) =>
    putPadValid padId text lastModified deviceID now st
  | _, _, _ =>
    { resp := .clientError "Invalid snapshot payload", state := st, msgs := [],
      applied := false }

/-- Decode one `%HH` escape; other characters pass through (model of
`decodeURIComponent` for ASCII output). -/
def hexVal (c : Char) : Option Nat :=
  if 48 ≤ c.toNat ∧ c.toNat ≤ 57 then some (c.toNat - 48)
  else if 65 ≤ c.toNat ∧ c.toNat ≤ 70 then some (c.toNat - 55)
  else if 97 ≤ c.toNat ∧ c.toNat ≤ 102 then some (c.toNat - 87)
  else none

/-- Percent-decoding of a character list. -/
def decodeChars : List Char → List Char
  | '%' :: a :: b :: rest =>
    match hexVal a, hexVal b with
    | some va, some vb => Char.ofNat (16 * va + vb) :: decodeChars rest
    | _, _ => '%' :: a :: b :: decodeChars rest
  | c :: rest => c :: decodeChars rest
  | [] => []

/-- Model of `decodeURIComponent` restricted to single-byte escapes. -/
def decodeURIComponent (s : String) : String := String.mk (decodeChars s.data)

/-- Is `pre` a prefix of `l`? -/
def listStartsWith : List Char → List Char → Bool
  | _, [] => true
  | [], _ :: _ => false
  | c :: cs, d :: ds => c = d && listStartsWith cs ds

/-- Match a connection URL against `^\/ws\/pads\/(.+)$` (at least one
character after the route prefix) and decode the pad id. -/
def wsUrlPad (url : String) : Option String :=
  if listStartsWith url.data ("/ws/pads/".data) ∧ 9 < url.data.length then
    some (decodeURIComponent (String.mk (url.data.drop 9)))
  else none

/-- `wss.on("connection")`: reject URLs that do not match the pad route;
otherwise send the current snapshot (via `ensureSnapshot`) as the first
message and register the client. -/
def connectWs (cid : Nat) (url : String) (now : Int) (st : ServerState) :
    ServerState × List (Nat × Snapshot) :=
  match wsUrlPad url with
  | none => (st, [])
  | some padId =>
    let snap := (ensureSnapshot padId now st).1
    let st1 := (ensureSnapshot padId now st).2
    ({ st1 with clients := st1.clients ++ [{ id := cid, padId := padId, wsOpen := true }] },
      [(cid, snap)])

/-- A transport failure on client `cid`: its socket leaves the `OPEN` state.
(The registry itself is not yet informed.) -/
def failClient (cid : Nat) (st : ServerState) : ServerState :=
  { st with clients :=
      st.clients.map (fun c => if c.id = cid then { c with wsOpen := false } else c) }

/-- The `ws.on("close")` handler: `clients.delete(client)`. -/
def closeClient (cid : Nat) (st : ServerState) : ServerState :=
  { st with clients := st.clients.filter (fun c => c.id != cid) }

/-- One externally triggered event at the server boundary. -/
inductive Op where
  | get (padId : String) (now : Int)
  | put (padId : String) (body : RawBody) (now : Int)
  | health
  | connect (cid : Nat) (url : String) (now : Int)
  | wsFail (cid : Nat)
  | wsClose (cid : Nat)

/-- Process one event: next state and WebSocket messages sent, as pairs of
client id and snapshot payload. -/
def step (st : ServerState) (op : Op) : ServerState × List (Nat × Snapshot) :=
  match op with
  | .get p now => ((getPad p now st).2, [])
  | .put p b now => ((putPad p b now st).state, (putPad p b now st).msgs)
  | .health => (st, [])
  | .connect cid url now => connectWs cid url now st
  | .wsFail cid => (failClient cid st, [])
  | .wsClose cid => (closeClient cid st, [])

/-- State after a sequence of events. -/
def runState (st : ServerState) : List Op → ServerState
  | [] => st
  | op :: rest => runState (step st op).1 rest

/-- All WebSocket messages sent while processing a sequence of events. -/
def runMsgs (st : ServerState) : List Op → List (Nat × Snapshot)
  | [] => []
  | op :: rest => (step st op).2 ++ runMsgs (step st op).1 rest

/-- The messages delivered to client `cid`, in order. -/
def msgsTo (cid : Nat) (l : List (Nat × Snapshot)) : List Snapshot :=
  l.filterMap (fun m => if m.1 = cid then some m.2 else none)

/-- The snapshot one event contributes to pad `p`'s accepted stream: the
stored snapshot of an applied write to `p`, nothing otherwise. -/
def acceptedHead (p : String) (st : ServerState) : Op → List Snapshot
  | .put q b now =>
    if q = p ∧ (putPad q b now st).applied = true then
      match (putPad q b now st).resp with
      | .ok s => [s]
      | .clientError _ => []
    else []
  | _ => []

/-- The snapshots accepted for pad `p` during a sequence of events, in
acceptance order. -/
def acceptedForPad (p : String) (st : ServerState) : List Op → List Snapshot
  | [] => []
  | op :: rest => acceptedHead p st op ++ acceptedForPad p (step st op).1 rest

/-! ## Handler characterisation lemmas -/

/-- `typeof` validation of the request body as a Boolean. -/
def validTypeof (b : RawBody) : Bool :=
  match b.text, b.lastModified, b.deviceID with
  | some (.str _), some (.str _), some (.str _) => true
  | _, _, _ => false

theorem putPad_valid (p tx lm dv : String) (body : RawBody) (now : Int)
    (st : ServerState) (htx : body.text = some (.str tx))
    (hlm : body.lastModified = some (.str lm))
    (hdv : body.deviceID = some (.str dv)) :
    putPad p body now st = putPadValid p tx lm dv now st := by
  obtain ⟨bt, bl, bd⟩ := body
  simp only at htx hlm hdv
  subst htx hlm hdv
  rfl

theorem ensureSnapshot_existing (p : String) (now : Int) (st : ServerState)
    (snap : Snapshot) (h : mapGet st.pads p = some snap) :
    ensureSnapshot p now st = (snap, st) := by
  unfold ensureSnapshot
  rw [h]

theorem ensureSnapshot_fresh (p : String) (now : Int) (st : ServerState)
    (h : mapGet st.pads p = none) :
    ensureSnapshot p now st =
      (defaultSnapshot now st.globalVersionCounter,
        { st with pads := mapSet st.pads p (defaultSnapshot now st.globalVersionCounter) }) := by
  unfold ensureSnapshot
  rw [h]

theorem ensureSnapshot_counter (p : String) (now : Int) (st : ServerState) :
    (ensureSnapshot p now st).2.globalVersionCounter = st.globalVersionCounter := by
  unfold ensureSnapshot
  rcases mapGet st.pads p <;> rfl

theorem ensureSnapshot_clients (p : String) (now : Int) (st : ServerState) :
    (ensureSnapshot p now st).2.clients = st.clients := by
  unfold ensureSnapshot
  rcases mapGet st.pads p <;> rfl

theorem ensureSnapshot_get (p : String) (now : Int) (st : ServerState) :
    mapGet (ensureSnapshot p now st).2.pads p = some (ensureSnapshot p now st).1 := by
  unfold ensureSnapshot
  rcases h : mapGet st.pads p with _ | snap
  · simpa using mapGet_mapSet_self st.pads p _
  · simpa using h

/-- The applied branch of the `PUT` handler. -/
theorem putPadValid_applied_eq (p tx lm dv : String) (now : Int) (st : ServerState)
    (tin tcur : Int) (hin : dateParse lm = some tin)
    (hcur : dateParse (ensureSnapshot p now st).1.lastModified = some tcur)
    (hlt : tcur < tin) :
    putPadValid p tx lm dv now st =
      { resp := .ok (updatedSnapshot tx dv tin
          ((ensureSnapshot p now st).2.globalVersionCounter + 1)),
        state := appliedState p tx dv tin (ensureSnapshot p now st).2,
        msgs := broadcastSnapshot p (appliedState p tx dv tin (ensureSnapshot p now st).2),
        applied := true } := by
  unfold putPadValid
  simp only [hin, hcur]
  rw [if_pos (by simp [hlt])]

/-- The stale branch of the `PUT` handler (parseable current timestamp). -/
theorem putPadValid_stale_eq (p tx lm dv : String) (now : Int) (st : ServerState)
    (tin tcur : Int) (hin : dateParse lm = some tin)
    (hcur : dateParse (ensureSnapshot p now st).1.lastModified = some tcur)
    (hge : tin ≤ tcur) :
    putPadValid p tx lm dv now st =
      { resp := .ok (ensureSnapshot p now st).1,
        state := (ensureSnapshot p now st).2, msgs := [], applied := false } := by
  unfold putPadValid
  simp only [hin, hcur]
  rw [if_neg (by simp; omega)]

/-- The `typeof` validation failure branch of the `PUT` handler. -/
theorem putPad_invalid_typeof (p : String) (body : RawBody) (now : Int)
    (st : ServerState) (h : validTypeof body = false) :
    putPad p body now st =
      { resp := .clientError "Invalid snapshot payload", state := st, msgs := [],
        applied := false } := by
  obtain ⟨bt, bl, bd⟩ := body
  unfold validTypeof at h
  unfold putPad
  rcases bt with _ | ⟨⟨tx⟩ | _⟩ <;> rcases bl with _ | ⟨⟨lm⟩ | _⟩ <;>
    rcases bd with _ | ⟨⟨dv⟩ | _⟩ <;> simp_all

/-- The timestamp-parse failure branch of the `PUT` handler. -/
theorem putPadValid_invalid_date (p tx lm dv : String) (now : Int)
    (st : ServerState) (hin : dateParse lm = none) :
    putPadValid p tx lm dv now st =
      { resp := .clientError "Invalid lastModified", state := st, msgs := [],
        applied := false } := by
  unfold putPadValid
  simp only [hin]

/-- When a `PUT` reports `applied`, the counter was incremented and the
response carries the snapshot stamped with the incremented counter. -/
theorem putPadValid_applied_version (p tx lm dv : String) (now : Int)
    (st : ServerState) (h : (putPadValid p tx lm dv now st).applied = true) :
    (putPadValid p tx lm dv now st).state.globalVersionCounter =
      st.globalVersionCounter + 1 ∧
    ∀ s, (putPadValid p tx lm dv now st).resp = .ok s →
      s.version = st.globalVersionCounter + 1 := by
  unfold putPadValid at h ⊢
  rcases hin : dateParse lm with _ | tin
  · simp [hin] at h
  · simp only [hin] at h ⊢
    rcases hcur : dateParse (ensureSnapshot p now st).1.lastModified with _ | tcur
    · simp only [hcur] at h ⊢
      rw [if_neg (by simp)] at h
      simp at h
    · simp only [hcur] at h ⊢
      rcases Int.lt_or_le tcur tin with hlt | hge
      · rw [if_pos (by simp [hlt])]
        refine ⟨?_, ?_⟩
        · simp [appliedState, ensureSnapshot_counter]
        · intro s hs
          simp only [PutResp.ok.injEq] at hs
          rw [← hs]
          simp [updatedSnapshot, ensureSnapshot_counter]
      · rw [if_neg (by simp; omega)] at h
        simp at h

/-- A `PUT` never registers, drops, or modifies subscribers. -/
theorem putPad_clients (p : String) (body : RawBody) (now : Int) (st : ServerState) :
    (putPad p body now st).state.clients = st.clients := by
  obtain ⟨bt, bl, bd⟩ := body
  rcases bt with _ | ⟨⟨tx⟩ | _⟩ <;> rcases bl with _ | ⟨⟨lm⟩ | _⟩ <;>
    rcases bd with _ | ⟨⟨dv⟩ | _⟩ <;> try rfl
  rw [putPad_valid p tx lm dv _ now st rfl rfl rfl]
  unfold putPadValid
  rcases dateParse lm with _ | tin
  · rfl
  · dsimp only
    split
    · simp [appliedState, ensureSnapshot_clients]
    · simp [ensureSnapshot_clients]

/-! ## Write sequences -/

/-- Fold a list of `(body, clock)` write requests into the store.  Returns
the final state, whether every write was applied, and the versions assigned
to the applied writes, in order. -/
def putSeq (p : String) (st : ServerState) : List (RawBody × Int) → ServerState × Bool × List Nat
  | [] => (st, true, [])
  | (b, now) :: rest =>
    let o := putPad p b now st
    let r := putSeq p o.state rest
    (r.1, o.applied && r.2.1,
      (if o.applied = true then [o.state.globalVersionCounter] else []) ++ r.2.2)

/-- The write requests are well-formed and carry strictly increasing,
representable instants, starting strictly above `t0`. -/
def SeqOK (t0 : Int) : List (RawBody × Int) → Prop
  | [] => True
  | (b, _) :: rest => ∃ tx lm dv tin,
      b.text = some (.str tx) ∧ b.lastModified = some (.str lm) ∧
      b.deviceID = some (.str dv) ∧ dateParse lm = some tin ∧
      t0 < tin ∧ 0 ≤ tin ∧ tin < 253402300800000 ∧ SeqOK tin rest

theorem putSeq_spec (p : String) (ws : List (RawBody × Int)) :
    ∀ (st : ServerState) (cur : Snapshot) (t0 : Int),
      mapGet st.pads p = some cur → dateParse cur.lastModified = some t0 →
      SeqOK t0 ws →
      (putSeq p st ws).2.1 = true ∧
      (putSeq p st ws).1.globalVersionCounter = st.globalVersionCounter + ws.length ∧
      (putSeq p st ws).2.2 =
        (List.range ws.length).map (fun i => st.globalVersionCounter + i + 1) := by
  induction ws with
  | nil => intro st cur t0 _ _ _; simp [putSeq]
  | cons bn rest ih =>
    obtain ⟨b, now⟩ := bn
    intro st cur t0 hcur hct hok
    obtain ⟨tx, lm, dv, tin, htx, hlm, hdv, hin, hlt, h0, h1, hrest⟩ := hok
    have hens : ensureSnapshot p now st = (cur, st) :=
      ensureSnapshot_existing p now st cur hcur
    have hput : putPad p b now st =
        { resp := .ok (updatedSnapshot tx dv tin (st.globalVersionCounter + 1)),
          state := appliedState p tx dv tin st,
          msgs := broadcastSnapshot p (appliedState p tx dv tin st),
          applied := true } := by
      rw [putPad_valid p tx lm dv b now st htx hlm hdv]
      rw [putPadValid_applied_eq p tx lm dv now st tin t0 hin (by rw [hens]; exact hct) hlt]
      rw [hens]
    have hnext : mapGet (appliedState p tx dv tin st).pads p =
        some (updatedSnapshot tx dv tin (st.globalVersionCounter + 1)) := by
      unfold appliedState
      exact mapGet_mapSet_self st.pads p _
    have hparse2 : dateParse (updatedSnapshot tx dv tin
        (st.globalVersionCounter + 1)).lastModified = some tin := by
      unfold updatedSnapshot
      exact dateParse_toISOString tin h0 h1
    have hih := ih (appliedState p tx dv tin st)
      (updatedSnapshot tx dv tin (st.globalVersionCounter + 1)) tin hnext hparse2 hrest
    have hcnt : (appliedState p tx dv tin st).globalVersionCounter =
        st.globalVersionCounter + 1 := rfl
    refine ⟨?_, ?_, ?_⟩
    · show ((putPad p b now st).applied &&
          (putSeq p (putPad p b now st).state rest).2.1) = true
      rw [hput]
      simp only [hput] at hih ⊢
      simp [hih.1]
    · show (putSeq p (putPad p b now st).state rest).1.globalVersionCounter =
        st.globalVersionCounter + ((b, now) :: rest).length
      rw [hput]
      rw [hih.2.1, hcnt]
      simp only [List.length_cons]
      omega
    · show (if (putPad p b now st).applied = true
          then [(putPad p b now st).state.globalVersionCounter] else []) ++
          (putSeq p (putPad p b now st).state rest).2.2 =
        (List.range ((b, now) :: rest).length).map
          (fun i => st.globalVersionCounter + i + 1)
      rw [hput]
      simp only [List.length_cons]
      rw [hih.2.2, hcnt]
      rw [List.range_succ_eq_map]
      simp only [List.map_cons, List.map_map, if_pos rfl]
      refine List.cons_eq_cons.mpr ⟨by omega, ?_⟩
      apply List.map_congr_left
      intro a _
      simp only [Function.comp]
      omega

/-! ## Broadcast and message-stream lemmas -/

theorem msgsTo_append (cid : Nat) (l1 l2 : List (Nat × Snapshot)) :
    msgsTo cid (l1 ++ l2) = msgsTo cid l1 ++ msgsTo cid l2 := by
  simp [msgsTo, List.filterMap_append]

/-- Either a `PUT` is not applied and sends nothing, or it is applied and
sends the accepted snapshot to exactly the open subscribers of its pad. -/
theorem putPad_msgs_spec (q : String) (b : RawBody) (now : Int) (st : ServerState) :
    ((putPad q b now st).applied = false ∧ (putPad q b now st).msgs = []) ∨
    (∃ s, (putPad q b now st).applied = true ∧ (putPad q b now st).resp = .ok s ∧
      (putPad q b now st).msgs =
        (st.clients.filter (fun c => c.padId == q && c.wsOpen)).map
          (fun c => (c.id, s))) := by
  obtain ⟨bt, bl, bd⟩ := b
  rcases bt with _ | ⟨⟨tx⟩ | _⟩ <;> rcases bl with _ | ⟨⟨lm⟩ | _⟩ <;>
    rcases bd with _ | ⟨⟨dv⟩ | _⟩ <;> try (left; exact ⟨rfl, rfl⟩)
  rw [putPad_valid q tx lm dv _ now st rfl rfl rfl]
  unfold putPadValid
  rcases hin : dateParse lm with _ | tin
  · left; exact ⟨rfl, rfl⟩
  · dsimp only
    split
    · right
      refine ⟨updatedSnapshot tx dv tin
        ((ensureSnapshot q now st).2.globalVersionCounter + 1), rfl, rfl, ?_⟩
      show broadcastSnapshot q (appliedState q tx dv tin (ensureSnapshot q now st).2) = _
      unfold broadcastSnapshot
      rw [show mapGet (appliedState q tx dv tin (ensureSnapshot q now st).2).pads q =
          some (updatedSnapshot tx dv tin
            ((ensureSnapshot q now st).2.globalVersionCounter + 1)) from
        mapGet_mapSet_self _ q _]
      rw [show (appliedState q tx dv tin (ensureSnapshot q now st).2).clients =
          st.clients by simp [appliedState, ensureSnapshot_clients]]
    · left; exact ⟨rfl, rfl⟩

theorem msgsTo_map_filter_none (cid : Nat) (snap : Snapshot) (P : Client → Bool)
    (l : List Client) (h : l.filter (fun c => c.id == cid) = []) :
    msgsTo cid ((l.filter P).map (fun c => (c.id, snap))) = [] := by
  induction l with
  | nil => rfl
  | cons c tl ih =>
    rcases hc : (c.id == cid) with _ | _
    · have hne : ¬ c.id = cid := by simpa using hc
      simp only [List.filter_cons, hc] at h
      rw [if_neg (by simp)] at h
      rcases hP : P c with _ | _
      · simp only [List.filter_cons, hP]
        rw [if_neg (by simp)]
        exact ih h
      · simp only [List.filter_cons, hP]
        rw [if_pos trivial]
        simp only [List.map_cons]
        unfold msgsTo
        simp only [List.filterMap_cons]
        rw [if_neg hne]
        exact ih h
    · simp only [List.filter_cons, hc] at h
      rw [if_pos trivial] at h
      exact absurd h (by simp)

theorem msgsTo_map_filter_one (cid : Nat) (snap : Snapshot) (P : Client → Bool)
    (l : List Client) (c0 : Client) (h : l.filter (fun c => c.id == cid) = [c0]) :
    msgsTo cid ((l.filter P).map (fun c => (c.id, snap))) =
      if P c0 = true then [snap] else [] := by
  induction l with
  | nil => simp [List.filter_nil] at h
  | cons c tl ih =>
    rcases hc : (c.id == cid) with _ | _
    · have hne : ¬ c.id = cid := by simpa using hc
      simp only [List.filter_cons, hc] at h
      rw [if_neg (by simp)] at h
      rcases hP : P c with _ | _
      · simp only [List.filter_cons, hP]
        rw [if_neg (by simp)]
        exact ih h
      · simp only [List.filter_cons, hP]
        rw [if_pos trivial]
        simp only [List.map_cons]
        unfold msgsTo
        simp only [List.filterMap_cons]
        rw [if_neg hne]
        exact ih h
    · have heq : c.id = cid := by simpa using hc
      simp only [List.filter_cons, hc] at h
      rw [if_pos trivial] at h
      obtain ⟨hc0, htl⟩ := List.cons_eq_cons.mp h
      subst hc0
      rcases hP : P c with _ | _
      · simp only [List.filter_cons, hP]
        rw [if_neg (by simp), if_neg (by simp [hP])]
        exact msgsTo_map_filter_none cid snap P tl htl
      · simp only [List.filter_cons, hP]
        rw [if_pos trivial, if_pos trivial]
        simp only [List.map_cons]
        unfold msgsTo
        simp only [List.filterMap_cons]
        rw [if_pos heq]
        have hnone := msgsTo_map_filter_none cid snap P tl htl
        unfold msgsTo at hnone
        rw [hnone]

/-- Does this event concern client `cid`'s connection? -/
def touches (cid : Nat) : Op → Bool
  | .connect c _ _ => c == cid
  | .wsFail c => c == cid
  | .wsClose c => c == cid
  | _ => false

/-- Is this event a connection of client `cid`? -/
def connectsTo (cid : Nat) : Op → Bool
  | .connect c _ _ => c == cid
  | _ => false

theorem getPad_clients (p : String) (now : Int) (st : ServerState) :
    (getPad p now st).2.clients = st.clients := ensureSnapshot_clients p now st

theorem closeClient_filter (cid : Nat) (st : ServerState) :
    (closeClient cid st).clients.filter (fun c => c.id == cid) = [] := by
  unfold closeClient
  simp only
  apply List.eq_nil_iff_forall_not_mem.mpr
  intro c hc
  have h1 := List.mem_filter.mp hc
  have h2 := List.mem_filter.mp h1.1
  have h3 := h1.2
  have h4 := h2.2
  simp only [beq_iff_eq] at h3
  simp only [bne_iff_ne, ne_eq] at h4
  exact h4 h3


theorem acceptedForPad_cons (p : String) (st : ServerState) (op : Op) (rest : List Op) :
    acceptedForPad p st (op :: rest) =
      acceptedHead p st op ++ acceptedForPad p (step st op).1 rest := rfl

theorem runMsgs_cons (st : ServerState) (op : Op) (rest : List Op) :
    runMsgs st (op :: rest) = (step st op).2 ++ runMsgs (step st op).1 rest := rfl

theorem acceptedHead_get (p q : String) (now : Int) (st : ServerState) :
    acceptedHead p st (.get q now) = [] := rfl

theorem acceptedHead_health (p : String) (st : ServerState) :
    acceptedHead p st .health = [] := rfl

theorem acceptedHead_connect (p : String) (cid : Nat) (url : String) (now : Int)
    (st : ServerState) : acceptedHead p st (.connect cid url now) = [] := rfl

theorem acceptedHead_wsFail (p : String) (cid : Nat) (st : ServerState) :
    acceptedHead p st (.wsFail cid) = [] := rfl

theorem acceptedHead_wsClose (p : String) (cid : Nat) (st : ServerState) :
    acceptedHead p st (.wsClose cid) = [] := rfl

theorem acceptedHead_put (p q : String) (b : RawBody) (now : Int) (st : ServerState) :
    acceptedHead p st (.put q b now) =
      if q = p ∧ (putPad q b now st).applied = true then
        match (putPad q b now st).resp with
        | .ok s => [s]
        | .clientError _ => []
      else [] := rfl

/-! Step-level equations (each holds by definitional unfolding of `step`). -/

theorem step_get (st : ServerState) (p : String) (now : Int) :
    step st (.get p now) = ((getPad p now st).2, []) := rfl

theorem step_put (st : ServerState) (p : String) (b : RawBody) (now : Int) :
    step st (.put p b now) = ((putPad p b now st).state, (putPad p b now st).msgs) := rfl

theorem step_health (st : ServerState) : step st .health = (st, []) := rfl

theorem step_connect (st : ServerState) (cid : Nat) (url : String) (now : Int) :
    step st (.connect cid url now) = connectWs cid url now st := rfl

theorem step_wsFail (st : ServerState) (cid : Nat) :
    step st (.wsFail cid) = (failClient cid st, []) := rfl

theorem step_wsClose (st : ServerState) (cid : Nat) :
    step st (.wsClose cid) = (closeClient cid st, []) := rfl

theorem connectWs_none (cid : Nat) (url : String) (now : Int) (st : ServerState)
    (h : wsUrlPad url = none) : connectWs cid url now st = (st, []) := by
  unfold connectWs
  rw [h]

theorem connectWs_some (cid : Nat) (url p : String) (now : Int) (st : ServerState)
    (h : wsUrlPad url = some p) :
    connectWs cid url now st =
      ({ (ensureSnapshot p now st).2 with
          clients := (ensureSnapshot p now st).2.clients ++
            [{ id := cid, padId := p, wsOpen := true }] },
        [(cid, (ensureSnapshot p now st).1)]) := by
  unfold connectWs
  rw [h]

theorem failClient_filter_ne (cid cid2 : Nat) (st : ServerState)
    (h : (cid2 == cid) = false) :
    (failClient cid2 st).clients.filter (fun c => c.id == cid) =
      st.clients.filter (fun c => c.id == cid) := by
  unfold failClient
  simp only
  rw [List.filter_map]
  have hcong : st.clients.filter
      ((fun c => c.id == cid) ∘
        (fun c => if c.id = cid2 then { c with wsOpen := false } else c)) =
      st.clients.filter (fun c => c.id == cid) := by
    apply List.filter_congr
    intro c _
    by_cases hcc : c.id = cid2 <;> simp [Function.comp, hcc]
  rw [hcong]
  conv_rhs => rw [← List.map_id (st.clients.filter (fun c => c.id == cid))]
  apply List.map_congr_left
  intro c hcmem
  have hcc : c.id = cid := by simpa using (List.mem_filter.mp hcmem).2
  have hne2 : ¬ c.id = cid2 := by
    intro hcontra
    rw [hcontra] at hcc
    subst hcc
    simp at h
  simp [hne2]

theorem closeClient_filter_ne (cid cid2 : Nat) (st : ServerState)
    (h : (cid2 == cid) = false) :
    (closeClient cid2 st).clients.filter (fun c => c.id == cid) =
      st.clients.filter (fun c => c.id == cid) := by
  unfold closeClient
  simp only
  rw [List.filter_comm]
  apply List.filter_eq_self.mpr
  intro c hcmem
  have hcc : c.id = cid := by simpa using (List.mem_filter.mp hcmem).2
  simp only [bne_iff_ne, ne_eq]
  intro hcontra
  rw [hcontra] at hcc
  subst hcc
  simp at h

/-- Events that do not concern client `cid` leave its registry entry (or its
absence) untouched. -/
theorem step_filter_eq (st : ServerState) (op : Op) (cid : Nat)
    (h : touches cid op = false) :
    (step st op).1.clients.filter (fun c => c.id == cid) =
      st.clients.filter (fun c => c.id == cid) := by
  rcases op with ⟨p, now⟩ | ⟨p, b, now⟩ | _ | ⟨cid2, url, now⟩ | cid2 | cid2
  · rw [step_get]
    simp only
    rw [getPad_clients]
  · rw [step_put]
    simp only
    rw [putPad_clients]
  · rfl
  · rw [step_connect]
    have hne : (cid2 == cid) = false := h
    rcases hu : wsUrlPad url with _ | p2
    · rw [connectWs_none cid2 url now st hu]
    · rw [connectWs_some cid2 url p2 now st hu]
      simp only
      rw [List.filter_append, ensureSnapshot_clients]
      rw [show List.filter (fun c => c.id == cid)
          ([{ id := cid2, padId := p2, wsOpen := true }] : List Client) = [] by simp [hne]]
      rw [List.append_nil]
  · rw [step_wsFail]
    exact failClient_filter_ne cid cid2 st h
  · rw [step_wsClose]
    exact closeClient_filter_ne cid cid2 st h

/-- The first message a `connect` event emits goes to the connecting client
only. -/
theorem connectWs_msgsTo_ne (cid cid2 : Nat) (url : String) (now : Int)
    (st : ServerState) (h : (cid2 == cid) = false) :
    msgsTo cid (connectWs cid2 url now st).2 = [] := by
  rcases hu : wsUrlPad url with _ | p2
  · rw [connectWs_none cid2 url now st hu]
    rfl
  · rw [connectWs_some cid2 url p2 now st hu]
    unfold msgsTo
    simp only [List.filterMap_cons, List.filterMap_nil]
    rw [if_neg (by simpa using h)]

/-- A registered, open subscriber of pad `p` receives precisely the snapshots
accepted for `p`, in acceptance order, while the events do not concern its
connection. -/
theorem subscriber_stream (cid : Nat) (p : String) (ops : List Op) :
    ∀ st : ServerState,
      st.clients.filter (fun c => c.id == cid) =
        [{ id := cid, padId := p, wsOpen := true }] →
      (∀ op ∈ ops, touches cid op = false) →
      msgsTo cid (runMsgs st ops) = acceptedForPad p st ops := by
  induction ops with
  | nil => intro st _ _; rfl
  | cons op rest ih =>
    intro st hone hops
    have hop : touches cid op = false := hops op (List.mem_cons_self op rest)
    have hrest : ∀ o ∈ rest, touches cid o = false :=
      fun o ho => hops o (List.mem_cons_of_mem op ho)
    have hpres := step_filter_eq st op cid hop
    rw [hone] at hpres
    have hmain : msgsTo cid (runMsgs st (op :: rest)) =
        msgsTo cid (step st op).2 ++ acceptedForPad p (step st op).1 rest := by
      show msgsTo cid ((step st op).2 ++ runMsgs (step st op).1 rest) = _
      rw [msgsTo_append, ih (step st op).1 hpres hrest]
    rw [hmain, acceptedForPad_cons]
    congr 1
    rcases op with ⟨q, now⟩ | ⟨q, b, now⟩ | _ | ⟨cid2, url, now⟩ | cid2 | cid2
    · rw [acceptedHead_get]
      rfl
    · rw [acceptedHead_put, step_put]
      show msgsTo cid (putPad q b now st).msgs = _
      rcases putPad_msgs_spec q b now st with ⟨hap, hm⟩ | ⟨s, hap, hresp, hm⟩
      · rw [hm]
        rw [if_neg (by simp [hap])]
        rfl
      · rw [hm]
        rw [msgsTo_map_filter_one cid s _ st.clients _ hone]
        simp only [hresp]
        by_cases hqp : q = p
        · subst hqp
          rw [if_pos (by simp), if_pos ⟨rfl, hap⟩]
        · rw [if_neg (show ¬ (({ id := cid, padId := p, wsOpen := true } : Client).padId == q &&
              ({ id := cid, padId := p, wsOpen := true } : Client).wsOpen) = true by
                simp only [Bool.and_eq_true, beq_iff_eq]
                exact fun hcontra => hqp hcontra.1.symm)]
          rw [if_neg (fun hcontra => hqp hcontra.1)]
    · rw [acceptedHead_health]
      rfl
    · rw [acceptedHead_connect, step_connect]
      exact connectWs_msgsTo_ne cid cid2 url now st hop
    · rw [acceptedHead_wsFail]
      rfl
    · rw [acceptedHead_wsClose]
      rfl

/-- A client that is not in the registry receives nothing, as long as no
event connects its id. -/
theorem subscriber_silent (cid : Nat) (ops : List Op) :
    ∀ st : ServerState,
      st.clients.filter (fun c => c.id == cid) = [] →
      (∀ op ∈ ops, connectsTo cid op = false) →
      msgsTo cid (runMsgs st ops) = [] := by
  induction ops with
  | nil => intro st _ _; rfl
  | cons op rest ih =>
    intro st hzero hops
    have hop : connectsTo cid op = false := hops op (List.mem_cons_self op rest)
    have hrest : ∀ o ∈ rest, connectsTo cid o = false :=
      fun o ho => hops o (List.mem_cons_of_mem op ho)
    have hpres : (step st op).1.clients.filter (fun c => c.id == cid) = [] := by
      rcases op with ⟨q, now⟩ | ⟨q, b, now⟩ | _ | ⟨cid2, url, now⟩ | cid2 | cid2
      · rw [step_get]
        simp only
        rw [getPad_clients, hzero]
      · rw [step_put]
        simp only
        rw [putPad_clients, hzero]
      · exact hzero
      · rw [step_connect]
        rcases hu : wsUrlPad url with _ | p2
        · rw [connectWs_none cid2 url now st hu]
          exact hzero
        · rw [connectWs_some cid2 url p2 now st hu]
          simp only
          rw [List.filter_append, ensureSnapshot_clients, hzero]
          have hne : (cid2 == cid) = false := hop
          simp [hne]
      · rw [step_wsFail]
        rcases hc : (cid2 == cid) with _ | _
        · rw [failClient_filter_ne cid cid2 st hc, hzero]
        · have hcid : cid2 = cid := by simpa using hc
          subst hcid
          unfold failClient
          simp only
          rw [List.filter_map]
          have hcong : st.clients.filter
              ((fun c => c.id == cid2) ∘
                (fun c => if c.id = cid2 then { c with wsOpen := false } else c)) =
              st.clients.filter (fun c => c.id == cid2) := by
            apply List.filter_congr
            intro c _
            by_cases hcc : c.id = cid2 <;> simp [Function.comp, hcc]
          rw [hcong, hzero, List.map_nil]
      · rw [step_wsClose]
        rcases hc : (cid2 == cid) with _ | _
        · rw [closeClient_filter_ne cid cid2 st hc, hzero]
        · have hcid : cid2 = cid := by simpa using hc
          subst hcid
          exact closeClient_filter cid2 st
    have hhead : msgsTo cid (step st op).2 = [] := by
      rcases op with ⟨q, now⟩ | ⟨q, b, now⟩ | _ | ⟨cid2, url, now⟩ | cid2 | cid2
      · rfl
      · rw [step_put]
        simp only
        rcases putPad_msgs_spec q b now st with ⟨hap, hm⟩ | ⟨s, hap, hresp, hm⟩
        · rw [hm]; rfl
        · rw [hm]
          exact msgsTo_map_filter_none cid s _ st.clients hzero
      · rfl
      · rw [step_connect]
        exact connectWs_msgsTo_ne cid cid2 url now st hop
      · rfl
      · rfl
    show msgsTo cid ((step st op).2 ++ runMsgs (step st op).1 rest) = []
    rw [msgsTo_append, hhead, ih (step st op).1 hpres hrest]
    rfl

theorem runState_append (st : ServerState) (l1 l2 : List Op) :
    runState st (l1 ++ l2) = runState (runState st l1) l2 := by
  induction l1 generalizing st with
  | nil => rfl
  | cons op rest ih =>
    show runState (step st op).1 (rest ++ l2) = _
    rw [ih]
    rfl

theorem runState_filter_eq (cid : Nat) (ops : List Op) :
    ∀ st : ServerState, (∀ op ∈ ops, touches cid op = false) →
      (runState st ops).clients.filter (fun c => c.id == cid) =
        st.clients.filter (fun c => c.id == cid) := by
  induction ops with
  | nil => intro st _; rfl
  | cons op rest ih =>
    intro st hops
    show (runState (step st op).1 rest).clients.filter _ = _
    rw [ih (step st op).1 (fun o ho => hops o (List.mem_cons_of_mem op ho))]
    exact step_filter_eq st op cid (hops op (List.mem_cons_self op rest))

/-- Lift of `putPadValid_applied_version` to `putPad`. -/
theorem putPad_applied_version (p : String) (body : RawBody) (now : Int)
    (st : ServerState) (h : (putPad p body now st).applied = true) :
    (putPad p body now st).state.globalVersionCounter = st.globalVersionCounter + 1 ∧
    ∀ s, (putPad p body now st).resp = .ok s →
      s.version = st.globalVersionCounter + 1 := by
  obtain ⟨bt, bl, bd⟩ := body
  rcases bt with _ | ⟨⟨tx⟩ | _⟩ <;> rcases bl with _ | ⟨⟨lm⟩ | _⟩ <;>
    rcases bd with _ | ⟨⟨dv⟩ | _⟩
  all_goals simp only [putPad] at h ⊢
  all_goals try (exact Bool.noConfusion (show false = true from h))
  exact putPadValid_applied_version p tx lm dv now st h

/-! ## The claims -/

/-- C2: a PUT whose candidate `lastModified` denotes the same instant as the
current snapshot's `lastModified` is rejected: the existing snapshot wins the
tie, the response carries it, the store is left unchanged, no broadcast is
sent, and no secondary tie-break (the candidate's `deviceID` is arbitrary)
ever applies. -/
theorem claim2_equal_timestamp_rejected (p : String) (body : RawBody) (now : Int)
    (st : ServerState) (tx lm dv : String) (t : Int) (cur : Snapshot)
    (htx : body.text = some (.str tx)) (hlm : body.lastModified = some (.str lm))
    (hdv : body.deviceID = some (.str dv)) (hin : dateParse lm = some t)
    (hcur : mapGet st.pads p = some cur) (hct : dateParse cur.lastModified = some t) :
    putPad p body now st =
      { resp := .ok cur, state := st, msgs := [], applied := false } := by
  have hens := ensureSnapshot_existing p now st cur hcur
  rw [putPad_valid p tx lm dv body now st htx hlm hdv]
  rw [putPadValid_stale_eq p tx lm dv now st t t hin (by rw [hens]; exact hct) le_rfl]
  rw [hens]

/-- The stored snapshot used by several concrete checks below. -/
def snapHi : Snapshot :=
  { text := "hi", lastModified := "2024-01-01T00:00:00.000Z", deviceID := "d1",
    version := 1 }

/-- A one-pad store holding `snapHi`, counter already at 1. -/
def stPad : ServerState :=
  { pads := [("pad", snapHi)], globalVersionCounter := 1, clients := [] }

/-- C2 witness: concrete equal-timestamp write, arbitrary `deviceID`. -/
theorem claim2_witness :
    putPad "pad"
        { text := some (.str "hi again"),
          lastModified := some (.str "2024-01-01T00:00:00.000Z"),
          deviceID := some (.str "d3") } 7 stPad =
      { resp := .ok snapHi, state := stPad, msgs := [], applied := false } :=
  claim2_equal_timestamp_rejected "pad" _ 7 stPad "hi again"
    "2024-01-01T00:00:00.000Z" "d3" 1704067200000 snapHi
    rfl rfl rfl (by decide) (by decide) (by decide)

/-- C3 counterexample: a valid stale PUT to a never-accessed pad is reported
as a success, yet the store after the call differs from the store before it
(the lazily created default entry persists). -/
theorem claim3_counterexample :
    (putPad "p"
        { text := some (.str "x"),
          lastModified := some (.str "1970-01-01T00:00:00.000Z"),
          deviceID := some (.str "d1") } 86400000 initialState).applied = false ∧
    (putPad "p"
        { text := some (.str "x"),
          lastModified := some (.str "1970-01-01T00:00:00.000Z"),
          deviceID := some (.str "d1") } 86400000 initialState).resp =
      .ok (defaultSnapshot 86400000 0) ∧
    (putPad "p"
        { text := some (.str "x"),
          lastModified := some (.str "1970-01-01T00:00:00.000Z"),
          deviceID := some (.str "d1") } 86400000 initialState).state ≠
      initialState := by decide

/-- C3 (amended): a valid stale PUT is reported as a success carrying the
current (possibly just lazily created) snapshot, is not applied, sends no
broadcast, leaves the version counter unchanged, and — whenever the pad
already had an entry — leaves the store byte-identical to its pre-call
state. -/
theorem claim3_stale_write_amended (p : String) (body : RawBody) (now : Int)
    (st : ServerState) (tx lm dv : String) (tin tcur : Int)
    (htx : body.text = some (.str tx)) (hlm : body.lastModified = some (.str lm))
    (hdv : body.deviceID = some (.str dv)) (hin : dateParse lm = some tin)
    (hcur : dateParse (ensureSnapshot p now st).1.lastModified = some tcur)
    (hle : tin ≤ tcur) :
    putPad p body now st =
      { resp := .ok (ensureSnapshot p now st).1,
        state := (ensureSnapshot p now st).2, msgs := [], applied := false } ∧
    (putPad p body now st).state.globalVersionCounter = st.globalVersionCounter ∧
    (∀ cur, mapGet st.pads p = some cur →
      putPad p body now st =
        { resp := .ok cur, state := st, msgs := [], applied := false }) := by
  have hmain : putPad p body now st =
      { resp := .ok (ensureSnapshot p now st).1,
        state := (ensureSnapshot p now st).2, msgs := [], applied := false } := by
    rw [putPad_valid p tx lm dv body now st htx hlm hdv]
    exact putPadValid_stale_eq p tx lm dv now st tin tcur hin hcur hle
  refine ⟨hmain, ?_, ?_⟩
  · rw [hmain]
    exact ensureSnapshot_counter p now st
  · intro cur hc
    rw [hmain, ensureSnapshot_existing p now st cur hc]

/-- C3 amended witness: stale write against an existing pad. -/
theorem claim3_witness :
    putPad "pad"
        { text := some (.str "bye"),
          lastModified := some (.str "2023-12-31T23:59:59.000Z"),
          deviceID := some (.str "d2") } 7 stPad =
      { resp := .ok snapHi, state := stPad, msgs := [], applied := false } :=
  (claim3_stale_write_amended "pad" _ 7 stPad "bye" "2023-12-31T23:59:59.000Z" "d2"
      1704067199000 1704067200000 rfl rfl rfl (by decide) (by decide)
      (by decide)).2.2 snapHi (by decide)

/-- C4 counterexample: after one accepted write (version 1) to pad `"a"`, a
GET of the never-written pad `"b"` lazily creates a default snapshot whose
version is 1 — the current counter value, not the process-start value 0 —
so the version 1 already assigned to pad `"a"`'s snapshot is reused. -/
theorem claim4_counterexample :
    initialState.globalVersionCounter = 0 ∧
    (putPad "a"
        { text := some (.str "x"),
          lastModified := some (.str "1970-01-02T00:00:00.000Z"),
          deviceID := some (.str "d1") } 0 initialState).resp =
      .ok { text := "x", lastModified := "1970-01-02T00:00:00.000Z",
            deviceID := "d1", version := 1 } ∧
    (getPad "b" 0 (putPad "a"
        { text := some (.str "x"),
          lastModified := some (.str "1970-01-02T00:00:00.000Z"),
          deviceID := some (.str "d1") } 0 initialState).state).1.version = 1 ∧
    (getPad "b" 0 (putPad "a"
        { text := some (.str "x"),
          lastModified := some (.str "1970-01-02T00:00:00.000Z"),
          deviceID := some (.str "d1") } 0 initialState).state).1.version ≠
      initialState.globalVersionCounter := by decide

/-- C4 (amended): a GET of a never-written pad returns the empty-text default
snapshot whose version is the counter value at the moment the entry is
created (the process-start value only if no write was accepted before), the
counter itself is unchanged, and repeated GETs return the identical snapshot
and state. -/
theorem claim4_default_get_amended (p : String) (now now2 : Int) (st : ServerState)
    (h : mapGet st.pads p = none) :
    (getPad p now st).1 = defaultSnapshot now st.globalVersionCounter ∧
    (getPad p now st).2.globalVersionCounter = st.globalVersionCounter ∧
    getPad p now2 (getPad p now st).2 = ((getPad p now st).1, (getPad p now st).2) := by
  have hfresh := ensureSnapshot_fresh p now st h
  refine ⟨by rw [show getPad p now st = ensureSnapshot p now st from rfl, hfresh], ?_, ?_⟩
  · exact ensureSnapshot_counter p now st
  · show ensureSnapshot p now2 (ensureSnapshot p now st).2 = _
    exact ensureSnapshot_existing p now2 (ensureSnapshot p now st).2
      (ensureSnapshot p now st).1 (ensureSnapshot_get p now st)

/-- C4 amended witness. -/
theorem claim4_witness :
    (getPad "b" 3 initialState).1 = defaultSnapshot 3 0 ∧
    (getPad "b" 3 initialState).2.globalVersionCounter = 0 ∧
    getPad "b" 9 (getPad "b" 3 initialState).2 =
      ((getPad "b" 3 initialState).1, (getPad "b" 3 initialState).2) :=
  claim4_default_get_amended "b" 3 9 initialState (by decide)

/-- C5: the version counter is shared process-wide: if a write to pad `A` is
applied and then a write to a distinct pad `B` is applied, the version
assigned to `B`'s snapshot is strictly greater than the version assigned to
`A`'s. -/
theorem claim5_global_counter_shared (pA pB : String) (bA bB : RawBody)
    (nowA nowB : Int) (st : ServerState) (sA sB : Snapshot) (hAB : pA ≠ pB)
    (hA : (putPad pA bA nowA st).applied = true)
    (hB : (putPad pB bB nowB (putPad pA bA nowA st).state).applied = true)
    (hsA : (putPad pA bA nowA st).resp = .ok sA)
    (hsB : (putPad pB bB nowB (putPad pA bA nowA st).state).resp = .ok sB) :
    sA.version < sB.version := by
  have h1 := putPad_applied_version pA bA nowA st hA
  have h2 := putPad_applied_version pB bB nowB (putPad pA bA nowA st).state hB
  have e1 := h1.2 sA hsA
  have e2 := h2.2 sB hsB
  rw [h1.1] at e2
  omega

/-- C5 witness: write pad "a", then pad "b", versions 1 then 2. -/
theorem claim5_witness :
    ({ text := "x", lastModified := "1970-01-02T00:00:00.000Z",
       deviceID := "d1", version := 1 } : Snapshot).version <
      ({ text := "y", lastModified := "1970-01-03T00:00:00.000Z",
         deviceID := "d2", version := 2 } : Snapshot).version :=
  claim5_global_counter_shared "a" "b"
    { text := some (.str "x"), lastModified := some (.str "1970-01-02T00:00:00.000Z"),
      deviceID := some (.str "d1") }
    { text := some (.str "y"), lastModified := some (.str "1970-01-03T00:00:00.000Z"),
      deviceID := some (.str "d2") }
    0 0 initialState _ _ (by decide) (by decide) (by decide) (by decide) (by decide)

/-- C6: a PUT with a malformed body — a missing or non-string field, or an
unparseable `lastModified` — yields a client-error response with an error
message, leaves the store completely untouched (same state object, counter
included), and broadcasts nothing. -/
theorem claim6_malformed_rejected (p : String) (body : RawBody) (now : Int)
    (st : ServerState)
    (h : validTypeof body = false ∨
      ∃ lm, body.lastModified = some (.str lm) ∧ dateParse lm = none) :
    ∃ msg, putPad p body now st =
      { resp := .clientError msg, state := st, msgs := [], applied := false } := by
  rcases hv : validTypeof body with _ | _
  · exact ⟨"Invalid snapshot payload", putPad_invalid_typeof p body now st hv⟩
  · rcases h with hbad | ⟨lm, hlm, hparse⟩
    · rw [hv] at hbad
      simp at hbad
    · obtain ⟨bt, bl, bd⟩ := body
      simp only at hlm
      subst hlm
      unfold validTypeof at hv
      rcases bt with _ | ⟨⟨tx⟩ | _⟩ <;> rcases bd with _ | ⟨⟨dv⟩ | _⟩ <;> simp_all
      refine ⟨"Invalid lastModified", ?_⟩
      rw [putPad_valid p tx lm dv _ now st rfl rfl rfl]
      exact putPadValid_invalid_date p tx lm dv now st hparse

/-- C6 witness: non-string `text` field. -/
theorem claim6_witness :
    ∃ msg, putPad "pad"
        { text := some .nonString,
          lastModified := some (.str "2024-01-01T00:00:00.000Z"),
          deviceID := some (.str "d1") } 0 initialState =
      { resp := .clientError msg, state := initialState, msgs := [],
        applied := false } :=
  claim6_malformed_rejected "pad" _ 0 initialState (Or.inl (by decide))

/-- C1 counterexample: a sequence of two writes to one pad with strictly
increasing `lastModified` (instants 0 and 1) in which no write is applied —
the pad's lazily created default snapshot is stamped with the clock reading
(day 1), which both candidates fail to exceed. -/
theorem claim1_counterexample :
    dateParse "1970-01-01T00:00:00.000Z" = some 0 ∧
    dateParse "1970-01-01T00:00:00.001Z" = some 1 ∧
    (putPad "p"
        { text := some (.str "a"),
          lastModified := some (.str "1970-01-01T00:00:00.000Z"),
          deviceID := some (.str "d") } 86400000 initialState).applied = false ∧
    (putPad "p"
        { text := some (.str "b"),
          lastModified := some (.str "1970-01-01T00:00:00.001Z"),
          deviceID := some (.str "d") } 86400000
      (putPad "p"
        { text := some (.str "a"),
          lastModified := some (.str "1970-01-01T00:00:00.000Z"),
          deviceID := some (.str "d") } 86400000 initialState).state).applied =
      false := by decide

/-- C1 (amended): the counter starts at 0; every PUT whose candidate instant
is strictly later than the current snapshot's instant is applied — the
counter is incremented, the incremented value becomes the new snapshot's
version (so the very first applied write yields version 1), the candidate
(with canonical timestamp) becomes the stored snapshot, and a broadcast to
the pad's subscribers is triggered; and every sequence of writes to one pad
with strictly increasing instants *that starts strictly above the pad's
current (possibly default) snapshot instant* is applied in full with
strictly increasing assigned versions. -/
theorem claim1_applied_writes :
    initialState.globalVersionCounter = 0 ∧
    (∀ (p : String) (body : RawBody) (now : Int) (st : ServerState)
        (tx lm dv : String) (tin tcur : Int),
      body.text = some (.str tx) → body.lastModified = some (.str lm) →
      body.deviceID = some (.str dv) → dateParse lm = some tin →
      dateParse (ensureSnapshot p now st).1.lastModified = some tcur →
      tcur < tin →
      (putPad p body now st).applied = true ∧
      (putPad p body now st).state.globalVersionCounter =
        st.globalVersionCounter + 1 ∧
      (putPad p body now st).resp =
        .ok (updatedSnapshot tx dv tin (st.globalVersionCounter + 1)) ∧
      mapGet (putPad p body now st).state.pads p =
        some (updatedSnapshot tx dv tin (st.globalVersionCounter + 1)) ∧
      (putPad p body now st).msgs =
        broadcastSnapshot p (putPad p body now st).state) ∧
    (∀ (p : String) (st : ServerState) (cur : Snapshot) (t0 : Int)
        (ws : List (RawBody × Int)),
      mapGet st.pads p = some cur → dateParse cur.lastModified = some t0 →
      SeqOK t0 ws →
      (putSeq p st ws).2.1 = true ∧
      (putSeq p st ws).1.globalVersionCounter =
        st.globalVersionCounter + ws.length ∧
      (putSeq p st ws).2.2.Pairwise (· < ·)) := by
  refine ⟨rfl, ?_, ?_⟩
  · intro p body now st tx lm dv tin tcur htx hlm hdv hin hcur hlt
    have hput : putPad p body now st =
        { resp := .ok (updatedSnapshot tx dv tin
            ((ensureSnapshot p now st).2.globalVersionCounter + 1)),
          state := appliedState p tx dv tin (ensureSnapshot p now st).2,
          msgs := broadcastSnapshot p
            (appliedState p tx dv tin (ensureSnapshot p now st).2),
          applied := true } := by
      rw [putPad_valid p tx lm dv body now st htx hlm hdv]
      exact putPadValid_applied_eq p tx lm dv now st tin tcur hin hcur hlt
    rw [hput, ensureSnapshot_counter]
    refine ⟨rfl, ?_, rfl, ?_, rfl⟩
    · show (appliedState p tx dv tin (ensureSnapshot p now st).2).globalVersionCounter = _
      unfold appliedState
      simp only
      rw [ensureSnapshot_counter]
    · show mapGet (appliedState p tx dv tin (ensureSnapshot p now st).2).pads p = _
      unfold appliedState
      simp only
      rw [ensureSnapshot_counter]
      exact mapGet_mapSet_self _ p _
  · intro p st cur t0 ws hcur hct hok
    have hspec := putSeq_spec p ws st cur t0 hcur hct hok
    refine ⟨hspec.1, hspec.2.1, ?_⟩
    rw [hspec.2.2]
    exact List.Pairwise.map _ (fun a b hab => by omega) (List.pairwise_lt_range _)

/-- Concrete bodies for the C1 sequence check. -/
def seqBody1 : RawBody :=
  { text := some (.str "s1"), lastModified := some (.str "2024-01-02T00:00:00.000Z"),
    deviceID := some (.str "d1") }

/-- Second concrete body for the C1 sequence check. -/
def seqBody2 : RawBody :=
  { text := some (.str "s2"), lastModified := some (.str "2024-01-03T00:00:00.000Z"),
    deviceID := some (.str "d1") }

/-- C1 witness: one applied write over an existing snapshot, and an applied
two-write sequence with strictly increasing instants. -/
theorem claim1_witness :
    (putPad "pad"
        { text := some (.str "new"),
          lastModified := some (.str "2024-01-02T00:00:00.000Z"),
          deviceID := some (.str "d2") } 7 stPad).applied = true ∧
    (putSeq "pad" stPad [(seqBody1, 7), (seqBody2, 8)]).2.1 = true ∧
    (putSeq "pad" stPad [(seqBody1, 7), (seqBody2, 8)]).2.2.Pairwise (· < ·) := by
  have h := claim1_applied_writes
  have hseq : SeqOK 1704067200000 [(seqBody1, 7), (seqBody2, 8)] :=
    ⟨"s1", "2024-01-02T00:00:00.000Z", "d1", 1704153600000, rfl, rfl, rfl,
      by decide, by decide, by decide, by decide,
      ⟨"s2", "2024-01-03T00:00:00.000Z", "d1", 1704240000000, rfl, rfl, rfl,
        by decide, by decide, by decide, by decide, trivial⟩⟩
  have hs := h.2.2 "pad" stPad snapHi 1704067200000 [(seqBody1, 7), (seqBody2, 8)]
    (by decide) (by decide) hseq
  exact ⟨(h.2.1 "pad" _ 7 stPad "new" "2024-01-02T00:00:00.000Z" "d2"
      1704153600000 1704067200000 rfl rfl rfl (by decide) (by decide)
      (by decide)).1, hs.1, hs.2.2⟩

/-- C9: an applied write stores, and responds with, the canonical
`toISOString` serialisation of the parsed candidate instant rather than the
writer's verbatim string; hence two applied writes whose candidate strings
denote the same instant store identical `lastModified` values. -/
theorem claim9_canonical_timestamp :
    (∀ (p : String) (body : RawBody) (now : Int) (st : ServerState)
        (tx lm dv : String) (tin : Int) (s : Snapshot),
      body.text = some (.str tx) → body.lastModified = some (.str lm) →
      body.deviceID = some (.str dv) → dateParse lm = some tin →
      (putPad p body now st).applied = true →
      (putPad p body now st).resp = .ok s →
      s.lastModified = toISOString tin ∧
      mapGet (putPad p body now st).state.pads p = some s) ∧
    (∀ (p1 p2 : String) (b1 b2 : RawBody) (n1 n2 : Int) (st1 st2 : ServerState)
        (tx1 lm1 dv1 tx2 lm2 dv2 : String) (t : Int) (s1 s2 : Snapshot),
      b1.text = some (.str tx1) → b1.lastModified = some (.str lm1) →
      b1.deviceID = some (.str dv1) → dateParse lm1 = some t →
      b2.text = some (.str tx2) → b2.lastModified = some (.str lm2) →
      b2.deviceID = some (.str dv2) → dateParse lm2 = some t →
      (putPad p1 b1 n1 st1).applied = true →
      (putPad p1 b1 n1 st1).resp = .ok s1 →
      (putPad p2 b2 n2 st2).applied = true →
      (putPad p2 b2 n2 st2).resp = .ok s2 →
      s1.lastModified = s2.lastModified) := by
  have main : ∀ (p : String) (body : RawBody) (now : Int) (st : ServerState)
      (tx lm dv : String) (tin : Int) (s : Snapshot),
      body.text = some (.str tx) → body.lastModified = some (.str lm) →
      body.deviceID = some (.str dv) → dateParse lm = some tin →
      (putPad p body now st).applied = true →
      (putPad p body now st).resp = .ok s →
      s.lastModified = toISOString tin ∧
      mapGet (putPad p body now st).state.pads p = some s := by
    intro p body now st tx lm dv tin s htx hlm hdv hin hap hresp
    rw [putPad_valid p tx lm dv body now st htx hlm hdv] at hap hresp ⊢
    unfold putPadValid at hap hresp ⊢
    rcases hcur : dateParse (ensureSnapshot p now st).1.lastModified with _ | tcur
    · simp only [hin, hcur] at hap
      rw [if_neg (by simp)] at hap
      simp at hap
    · rcases Int.lt_or_le tcur tin with hlt | hge
      · rw [show (dateParse lm) = some tin from hin] at hap hresp ⊢
        simp only [hcur] at hap hresp ⊢
        rw [if_pos (by simp [hlt])] at hresp ⊢
        simp only [PutResp.ok.injEq] at hresp
        subst hresp
        refine ⟨rfl, ?_⟩
        simp only
        exact mapGet_mapSet_self _ p _
      · rw [show (dateParse lm) = some tin from hin] at hap
        simp only [hcur] at hap
        rw [if_neg (by simp; omega)] at hap
        simp at hap
  refine ⟨main, ?_⟩
  intro p1 p2 b1 b2 n1 n2 st1 st2 tx1 lm1 dv1 tx2 lm2 dv2 t s1 s2
    h1 h2 h3 h4 h5 h6 h7 h8 h9 h10 h11 h12
  have e1 := (main p1 b1 n1 st1 tx1 lm1 dv1 t s1 h1 h2 h3 h4 h9 h10).1
  have e2 := (main p2 b2 n2 st2 tx2 lm2 dv2 t s2 h5 h6 h7 h8 h11 h12).1
  rw [e1, e2]

/-- C9 witness: an offset-form candidate and a Z-form candidate denoting the
same instant are stored with identical canonical `lastModified` values, and
the stored form differs textually from the offset-form submission. -/
theorem claim9_witness :
    (∀ s, (putPad "q"
        { text := some (.str "x"),
          lastModified := some (.str "2024-01-01T01:00:00.000+01:00"),
          deviceID := some (.str "d1") } 7 stPad).resp = .ok s →
      s.lastModified = toISOString 1704067200000) ∧
    toISOString 1704067200000 ≠ "2024-01-01T01:00:00.000+01:00" := by
  constructor
  · intro s hs
    exact (claim9_canonical_timestamp.1 "q" _ 7 stPad "x"
      "2024-01-01T01:00:00.000+01:00" "d1" 1704067200000 s rfl rfl rfl
      (by decide) (by decide) hs).1
  · decide

/-- C10: the lazily created default snapshot is stamped with the clock time
`t` of its creation, so a first PUT to the pad whose candidate instant is at
most `t` is rejected as stale — whether the entry was created by a GET, by a
subscribe, or by the PUT itself — even though no client ever wrote the pad. -/
theorem claim10_default_stamp_stale (p : String) (body : RawBody)
    (now2 t u : Int) (st : ServerState) (tx lm dv : String)
    (hfresh : mapGet st.pads p = none)
    (htx : body.text = some (.str tx)) (hlm : body.lastModified = some (.str lm))
    (hdv : body.deviceID = some (.str dv)) (hin : dateParse lm = some u)
    (hu : u ≤ t) (ht0 : 0 ≤ t) (ht1 : t < 253402300800000) :
    ((putPad p body now2 (getPad p t st).2).applied = false ∧
     (putPad p body now2 (getPad p t st).2).resp =
       .ok (defaultSnapshot t st.globalVersionCounter) ∧
     (putPad p body now2 (getPad p t st).2).state = (getPad p t st).2) ∧
    (∀ (cid : Nat) (url : String), wsUrlPad url = some p →
      (putPad p body now2 (connectWs cid url t st).1).applied = false ∧
      (putPad p body now2 (connectWs cid url t st).1).resp =
        .ok (defaultSnapshot t st.globalVersionCounter)) ∧
    ((putPad p body t st).applied = false ∧
     (putPad p body t st).resp = .ok (defaultSnapshot t st.globalVersionCounter)) := by
  have hens := ensureSnapshot_fresh p t st hfresh
  have hdparse : dateParse (defaultSnapshot t st.globalVersionCounter).lastModified =
      some t := by
    unfold defaultSnapshot
    exact dateParse_toISOString t ht0 ht1
  refine ⟨?_, ?_, ?_⟩
  · have hget : mapGet (getPad p t st).2.pads p =
        some (defaultSnapshot t st.globalVersionCounter) := by
      show mapGet (ensureSnapshot p t st).2.pads p = _
      rw [hens]
      exact mapGet_mapSet_self _ p _
    have hens2 := ensureSnapshot_existing p now2 (getPad p t st).2
      (defaultSnapshot t st.globalVersionCounter) hget
    have hstale : putPad p body now2 (getPad p t st).2 =
        { resp := .ok (ensureSnapshot p now2 (getPad p t st).2).1,
          state := (ensureSnapshot p now2 (getPad p t st).2).2, msgs := [],
          applied := false } := by
      rw [putPad_valid p tx lm dv body now2 _ htx hlm hdv]
      exact putPadValid_stale_eq p tx lm dv now2 _ u t hin
        (by rw [hens2]; exact hdparse) hu
    rw [hstale, hens2]
    exact ⟨rfl, rfl, rfl⟩
  · intro cid url hurl
    have hC := connectWs_some cid url p t st hurl
    have hget : mapGet (connectWs cid url t st).1.pads p =
        some (defaultSnapshot t st.globalVersionCounter) := by
      rw [hC]
      show mapGet (ensureSnapshot p t st).2.pads p = _
      rw [hens]
      exact mapGet_mapSet_self _ p _
    have hens2 := ensureSnapshot_existing p now2 (connectWs cid url t st).1
      (defaultSnapshot t st.globalVersionCounter) hget
    have hstale : putPad p body now2 (connectWs cid url t st).1 =
        { resp := .ok (ensureSnapshot p now2 (connectWs cid url t st).1).1,
          state := (ensureSnapshot p now2 (connectWs cid url t st).1).2, msgs := [],
          applied := false } := by
      rw [putPad_valid p tx lm dv body now2 _ htx hlm hdv]
      exact putPadValid_stale_eq p tx lm dv now2 _ u t hin
        (by rw [hens2]; exact hdparse) hu
    rw [hstale, hens2]
    exact ⟨rfl, rfl⟩
  · have hstale : putPad p body t st =
        { resp := .ok (ensureSnapshot p t st).1,
          state := (ensureSnapshot p t st).2, msgs := [], applied := false } := by
      rw [putPad_valid p tx lm dv body t st htx hlm hdv]
      exact putPadValid_stale_eq p tx lm dv t st u t hin
        (by rw [hens]; exact hdparse) hu
    rw [hstale, hens]
    exact ⟨rfl, rfl⟩

/-- C10 witness: pad created at day 1; a first PUT carrying day 0 is
rejected in all three creation scenarios. -/
theorem claim10_witness :
    ((putPad "p"
        { text := some (.str "x"),
          lastModified := some (.str "1970-01-01T00:00:00.000Z"),
          deviceID := some (.str "d") } 99 (getPad "p" 86400000 initialState).2).applied =
      false) ∧
    (putPad "p"
        { text := some (.str "x"),
          lastModified := some (.str "1970-01-01T00:00:00.000Z"),
          deviceID := some (.str "d") } 86400000 initialState).resp =
      .ok (defaultSnapshot 86400000 0) := by
  have h := claim10_default_stamp_stale "p"
    { text := some (.str "x"),
      lastModified := some (.str "1970-01-01T00:00:00.000Z"),
      deviceID := some (.str "d") } 99 86400000 0 initialState "x"
    "1970-01-01T00:00:00.000Z" "d" (by decide) rfl rfl rfl (by decide)
    (by decide) (by decide) (by decide)
  exact ⟨h.1.1, h.2.2.2⟩

/-- C7: a subscriber connecting to pad `p` first receives exactly the
snapshot a GET at that instant would return (with the same lazily created
store entry), thereafter receives every snapshot accepted for `p`, in
acceptance order, while connected — and after its close event it receives
nothing further. -/
theorem claim7_subscriber_messages (st : ServerState) (cid : Nat) (url p : String)
    (now : Int) (ops ops2 : List Op)
    (hurl : wsUrlPad url = some p)
    (hfresh : st.clients.filter (fun c => c.id == cid) = [])
    (hops : ∀ op ∈ ops, touches cid op = false)
    (hops2 : ∀ op ∈ ops2, connectsTo cid op = false) :
    (connectWs cid url now st).2 = [(cid, (getPad p now st).1)] ∧
    (connectWs cid url now st).1.pads = (getPad p now st).2.pads ∧
    msgsTo cid (runMsgs (connectWs cid url now st).1 ops) =
      acceptedForPad p (connectWs cid url now st).1 ops ∧
    msgsTo cid (runMsgs
      (runState (connectWs cid url now st).1 (ops ++ [Op.wsClose cid])) ops2) = [] := by
  have hC := connectWs_some cid url p now st hurl
  refine ⟨?_, ?_, ?_, ?_⟩
  · rw [hC]
    rfl
  · rw [hC]
    rfl
  · apply subscriber_stream cid p ops (connectWs cid url now st).1 ?_ hops
    rw [hC]
    simp only
    rw [List.filter_append, ensureSnapshot_clients, hfresh]
    simp
  · apply subscriber_silent cid ops2 _ ?_ hops2
    rw [runState_append]
    have hlast : runState (runState (connectWs cid url now st).1 ops) [Op.wsClose cid] =
        closeClient cid (runState (connectWs cid url now st).1 ops) := rfl
    rw [hlast]
    exact closeClient_filter cid _

/-- C7 witness: a concrete subscriber sees the GET snapshot first, then the
accepted write, and nothing after its close. -/
theorem claim7_witness :
    (connectWs 1 "/ws/pads/q" 0 initialState).2 =
      [(1, (getPad "q" 0 initialState).1)] ∧
    msgsTo 1 (runMsgs (connectWs 1 "/ws/pads/q" 0 initialState).1
        [Op.put "q" seqBody1 5]) =
      acceptedForPad "q" (connectWs 1 "/ws/pads/q" 0 initialState).1
        [Op.put "q" seqBody1 5] ∧
    msgsTo 1 (runMsgs
      (runState (connectWs 1 "/ws/pads/q" 0 initialState).1
        ([Op.put "q" seqBody1 5] ++ [Op.wsClose 1])) [Op.put "q" seqBody2 6]) = [] := by
  have h := claim7_subscriber_messages initialState 1 "/ws/pads/q" "q" 0
    [Op.put "q" seqBody1 5] [Op.put "q" seqBody2 6] (by decide) (by decide)
    (by decide) (by decide)
  exact ⟨h.1, h.2.2.1, h.2.2.2⟩

/-- Dropping a failed (non-`OPEN`) client from a broadcast does not change
what any other client receives. -/
theorem msgsTo_fail_aux (cid cid2 : Nat) (h : cid2 ≠ cid) (snap : Snapshot)
    (p : String) (l : List Client) :
    msgsTo cid2 (((l.map
        (fun c => if c.id = cid then { c with wsOpen := false } else c)).filter
      (fun c => c.padId == p && c.wsOpen)).map (fun c => (c.id, snap))) =
    msgsTo cid2 ((l.filter (fun c => c.padId == p && c.wsOpen)).map
      (fun c => (c.id, snap))) := by
  induction l with
  | nil => rfl
  | cons c tl ih =>
    by_cases hcc : c.id = cid
    · have hP2 : (({ c with wsOpen := false } : Client).padId == p &&
          ({ c with wsOpen := false } : Client).wsOpen) = false := by simp
      simp only [List.map_cons, if_pos hcc, List.filter_cons, hP2]
      rw [if_neg (by simp)]
      rcases hP : (c.padId == p && c.wsOpen) with _ | _
      · rw [if_neg (by simp [hP])]
        exact ih
      · rw [if_pos (by simp [hP])]
        simp only [List.map_cons]
        unfold msgsTo
        simp only [List.filterMap_cons]
        rw [if_neg (by rw [hcc]; exact fun he => h he.symm)]
        exact ih
    · simp only [List.map_cons, if_neg hcc, List.filter_cons]
      rcases hP : (c.padId == p && c.wsOpen) with _ | _
      · rw [if_neg (by simp), if_neg (by simp)]
        exact ih
      · rw [if_pos (by simp), if_pos (by simp)]
        simp only [List.map_cons]
        unfold msgsTo
        simp only [List.filterMap_cons]
        unfold msgsTo at ih
        by_cases hc2 : c.id = cid2
        · rw [if_pos hc2, ih]
        · rw [if_neg hc2, ih]

/-- The `PUT` response does not depend on the subscriber registry. -/
theorem putPad_resp_set_clients (p : String) (b : RawBody) (now : Int)
    (st : ServerState) (cs : List Client) :
    (putPad p b now { st with clients := cs }).resp = (putPad p b now st).resp := by
  obtain ⟨bt, bl, bd⟩ := b
  rcases bt with _ | ⟨⟨tx⟩ | _⟩ <;> rcases bl with _ | ⟨⟨lm⟩ | _⟩ <;>
    rcases bd with _ | ⟨⟨dv⟩ | _⟩ <;> try rfl
  rw [putPad_valid p tx lm dv _ now { st with clients := cs } rfl rfl rfl,
    putPad_valid p tx lm dv _ now st rfl rfl rfl]
  unfold putPadValid
  rcases hin : dateParse lm with _ | tin
  · rfl
  · simp only
    unfold ensureSnapshot
    rw [show ({ st with clients := cs } : ServerState).pads = st.pads from rfl,
      show ({ st with clients := cs } : ServerState).globalVersionCounter =
        st.globalVersionCounter from rfl]
    rcases hm : mapGet st.pads p with _ | snap
    · dsimp only
      split_ifs <;> rfl
    · dsimp only
      split_ifs <;> rfl

/-- C8: broadcast delivery is best-effort and isolated per subscriber — every
open subscriber of the pad is delivered to, regardless of other clients; a
client whose socket has failed neither receives nor affects what others
receive; the close event triggered by a dead connection removes the
subscriber from the registry; and the writer's response never depends on the
subscriber registry at all. -/
theorem claim8_best_effort_broadcast :
    (∀ (st : ServerState) (p : String) (snap : Snapshot) (c : Client),
      mapGet st.pads p = some snap → c ∈ st.clients → c.padId = p →
      c.wsOpen = true → (c.id, snap) ∈ broadcastSnapshot p st) ∧
    (∀ (st : ServerState) (p : String) (cid cid2 : Nat), cid2 ≠ cid →
      msgsTo cid2 (broadcastSnapshot p (failClient cid st)) =
        msgsTo cid2 (broadcastSnapshot p st)) ∧
    (∀ (cid : Nat) (st : ServerState),
      (closeClient cid st).clients.filter (fun c => c.id == cid) = []) ∧
    (∀ (p : String) (b : RawBody) (now : Int) (st : ServerState) (cs : List Client),
      (putPad p b now { st with clients := cs }).resp = (putPad p b now st).resp) := by
  refine ⟨?_, ?_, ?_, ?_⟩
  · intro st p snap c hsnap hc hpad hopen
    unfold broadcastSnapshot
    rw [hsnap]
    exact List.mem_map.mpr ⟨c, List.mem_filter.mpr ⟨hc, by simp [hpad, hopen]⟩, rfl⟩
  · intro st p cid cid2 h
    unfold broadcastSnapshot
    rw [show (failClient cid st).pads = st.pads from rfl]
    rcases hm : mapGet st.pads p with _ | snap
    · rfl
    · rw [show (failClient cid st).clients = st.clients.map
        (fun c => if c.id = cid then { c with wsOpen := false } else c) from rfl]
      exact msgsTo_fail_aux cid cid2 h snap p st.clients
  · intro cid st
    exact closeClient_filter cid st
  · intro p b now st cs
    exact putPad_resp_set_clients p b now st cs

/-- C8 witness: concrete broadcast with one failed and one open subscriber. -/
theorem claim8_witness :
    (1, snapHi) ∈ broadcastSnapshot "pad"
      { pads := [("pad", snapHi)], globalVersionCounter := 1,
        clients := [{ id := 1, padId := "pad", wsOpen := true }] } ∧
    msgsTo 1 (broadcastSnapshot "pad" (failClient 2
      { pads := [("pad", snapHi)], globalVersionCounter := 1,
        clients := [{ id := 1, padId := "pad", wsOpen := true },
          { id := 2, padId := "pad", wsOpen := true }] })) =
      msgsTo 1 (broadcastSnapshot "pad"
        { pads := [("pad", snapHi)], globalVersionCounter := 1,
          clients := [{ id := 1, padId := "pad", wsOpen := true },
            { id := 2, padId := "pad", wsOpen := true }] }) ∧
    (closeClient 2
      { pads := [("pad", snapHi)], globalVersionCounter := 1,
        clients := [{ id := 2, padId := "pad", wsOpen := false }] }).clients.filter
      (fun c => c.id == 2) = [] ∧
    (putPad "pad" seqBody1 7
        { stPad with clients := [{ id := 2, padId := "pad", wsOpen := false }] }).resp =
      (putPad "pad" seqBody1 7 stPad).resp := by
  have h := claim8_best_effort_broadcast
  refine ⟨h.1 _ "pad" snapHi { id := 1, padId := "pad", wsOpen := true }
      (by decide) (by decide) rfl rfl,
    h.2.1 _ "pad" 2 1 (by decide), h.2.2.1 2 _, ?_⟩
  exact h.2.2.2 "pad" seqBody1 7 stPad [{ id := 2, padId := "pad", wsOpen := false }]

end SyncNote
